import Mathlib

/-!
Verification development for the kon-tawa 2D wave simulator.

The development shallowly embeds the simulation core:

* `Array2D` mirrors `simulation.rs`: a row-major container with signed
  bounds-checked `get`/`get_mut` access over flat `Vec` storage (here a
  `List`).
* `World` and `World.update` mirror `main.rs`: the double-buffered
  pressure/velocity stencil update with the per-cell material override.
  The scalar type `f32` is embedded as `ℚ` (the claims under scrutiny are
  structural: which value feeds which formula, which cells are written),
  and the library sine is passed in as an uninterpreted function
  `sinf : ℚ → ℚ`.  Grids of the fixed `512 × 512` world are embedded as
  total index functions `ℕ → ℕ → α`; out-of-range reads go through `gget`,
  which reproduces `Array2D::get`'s bounds test.
* `Fl` is a four-point model of the `f32` finiteness classes
  (finite / +∞ / −∞ / NaN), used for the claims that are really about
  `is_finite` / `is_infinite` distinctions: the in-update assertion
  (`assert!(!back.is_infinite())`) and the spectrum-forcing coercion.
* `dbufAcquire` mirrors `audio.rs`'s `DoubleBuffer::get` try-lock loop,
  with the lock state of the two slots abstracted as a function
  `locked : Bool → Bool` and the loop given explicit fuel.
-/

/-! ### `simulation.rs`: `Array2D` -/

/-- Row-major 2D container (`simulation.rs`).  The `Vec<T>` backing store
is embedded as a `List T`; `Array2D::new` always allocates
`width * height` elements, which theorems carry as the hypothesis
`storage.length = width * height`. -/
structure Array2D (T : Type) where
  width : Nat
  height : Nat
  storage : List T
deriving DecidableEq

/-- `Array2D::new(width, height, val)`: `width * height` copies of `val`.
The source asserts both dimensions nonzero and uses `checked_mul`; on `ℕ`
the product neither traps nor overflows. -/
def Array2D.new (width height : Nat) (val : T) : Array2D T :=
  { width := width, height := height, storage := List.replicate (width * height) val }

/-- `Array2D::get(x, y)`: `None` outside `[0,width) × [0,height)`, else the
element at flat index `x + width * y`. -/
def Array2D.get (a : Array2D T) (x y : ℤ) : Option T :=
  if x < 0 ∨ y < 0 ∨ (a.width : ℤ) ≤ x ∨ (a.height : ℤ) ≤ y then
    none
  else
    a.storage.get? (x + (a.width : ℤ) * y).toNat

/-- `Array2D::get_mut(x, y)` followed by an assignment of `v` through the
returned reference: `none` exactly when `get_mut` returns `None`, otherwise
the updated container. -/
def Array2D.write (a : Array2D T) (x y : ℤ) (v : T) : Option (Array2D T) :=
  if x < 0 ∨ y < 0 ∨ (a.width : ℤ) ≤ x ∨ (a.height : ℤ) ≤ y then
    none
  else
    match a.storage.get? (x + (a.width : ℤ) * y).toNat with
    | none => none
    | some _ => some { a with storage := a.storage.set (x + (a.width : ℤ) * y).toNat v }

/-- In-range coordinates index strictly inside the `width * height` flat
storage. -/
theorem flatIndex_lt (w h : ℕ) (x y : ℤ) (hx0 : 0 ≤ x) (hxw : x < (w : ℤ))
    (hy0 : 0 ≤ y) (hyh : y < (h : ℤ)) : (x + (w : ℤ) * y).toNat < w * h := by
  obtain ⟨a, rfl⟩ := Int.eq_ofNat_of_zero_le hx0
  obtain ⟨b, rfl⟩ := Int.eq_ofNat_of_zero_le hy0
  have ha : a < w := by exact_mod_cast hxw
  have hb : b < h := by exact_mod_cast hyh
  have hcast : ((a : ℤ) + (w : ℤ) * (b : ℤ)).toNat = a + w * b := by
    have : ((a : ℤ) + (w : ℤ) * (b : ℤ)) = ((a + w * b : ℕ) : ℤ) := by push_cast; ring
    rw [this, Int.toNat_natCast]
  rw [hcast]
  calc a + w * b < w + w * b := by omega
    _ = w * (b + 1) := by ring
    _ ≤ w * h := Nat.mul_le_mul_left w (by omega)

/-- C7: `Array2D::get`/`get_mut` return `None` exactly when `x<0`, `y<0`,
`x>=width` or `y>=height`; on every in-range coordinate `get` returns the
exact stored element at flat index `x + width * y`, and a value written
through `get_mut` is the value subsequently read through `get`. -/
theorem array2d_get_write_contract {T : Type} (a : Array2D T) (x y : ℤ) (v : T)
    (hlen : a.storage.length = a.width * a.height) :
    (a.get x y = none ↔ (x < 0 ∨ y < 0 ∨ (a.width : ℤ) ≤ x ∨ (a.height : ℤ) ≤ y)) ∧
    (a.write x y v = none ↔ (x < 0 ∨ y < 0 ∨ (a.width : ℤ) ≤ x ∨ (a.height : ℤ) ≤ y)) ∧
    (0 ≤ x → x < (a.width : ℤ) → 0 ≤ y → y < (a.height : ℤ) →
      a.get x y = a.storage.get? (x + (a.width : ℤ) * y).toNat ∧
      (a.get x y).isSome = true ∧
      ∃ a' : Array2D T, a.write x y v = some a' ∧ a'.get x y = some v) := by
  by_cases hoob : x < 0 ∨ y < 0 ∨ (a.width : ℤ) ≤ x ∨ (a.height : ℤ) ≤ y
  · refine ⟨by simp [Array2D.get, hoob], by simp [Array2D.write, hoob], ?_⟩
    intro hx0 hxw hy0 hyh
    exact absurd hoob (by push_neg; exact ⟨hx0, hy0, hxw, hyh⟩)
  · push_neg at hoob
    obtain ⟨hx0, hy0, hxw, hyh⟩ := hoob
    have hcond : ¬(x < 0 ∨ y < 0 ∨ (a.width : ℤ) ≤ x ∨ (a.height : ℤ) ≤ y) := by
      push_neg; exact ⟨hx0, hy0, hxw, hyh⟩
    have hidx : (x + (a.width : ℤ) * y).toNat < a.storage.length := by
      rw [hlen]; exact flatIndex_lt _ _ _ _ hx0 hxw hy0 hyh
    have hget : a.get x y = a.storage.get? (x + (a.width : ℤ) * y).toNat := by
      simp only [Array2D.get]; rw [if_neg hcond]
    have hsome : a.storage.get? (x + (a.width : ℤ) * y).toNat
        = some (a.storage.get ⟨(x + (a.width : ℤ) * y).toNat, hidx⟩) := by
      rw [List.get?_eq_getElem?, List.getElem?_eq_getElem hidx]; rfl
    refine ⟨?_, ?_, ?_⟩
    · rw [hget, hsome]; simp [hcond]
    · simp only [Array2D.write]; rw [if_neg hcond, hsome]; simp [hcond]
    · intro _ _ _ _
      refine ⟨by rw [hget], by rw [hget, hsome]; rfl, ?_⟩
      refine ⟨{ a with storage := a.storage.set (x + (a.width : ℤ) * y).toNat v }, ?_, ?_⟩
      · simp only [Array2D.write]; rw [if_neg hcond, hsome]
      · simp only [Array2D.get]; rw [if_neg hcond]
        rw [List.get?_eq_getElem?]
        exact List.getElem?_set_eq_of_lt v (by simpa using hidx)

/-- Concrete 2 × 2 container used to witness the `Array2D` contract. -/
def aW : Array2D ℚ := ⟨2, 2, [10, 20, 30, 40]⟩

/-- Witness: the `Array2D` contract instantiated at a concrete in-range and
write on `aW`. -/
theorem array2d_get_write_contract_witness :
    aW.get 1 1 = none ↔ ((1 : ℤ) < 0 ∨ (1 : ℤ) < 0 ∨ (aW.width : ℤ) ≤ 1 ∨ (aW.height : ℤ) ≤ 1) :=
  (array2d_get_write_contract aW 1 1 (7 : ℚ) (by decide)).1

/-! ### `main.rs`: the simulation world -/

/-- Grid width of the fixed 512 × 512 world (`main.rs`). -/
def WIDTH : ℕ := 512

/-- Grid height of the fixed 512 × 512 world (`main.rs`). -/
def HEIGHT : ℕ := 512

/-- Per-cell material tag (`main.rs`). -/
inductive Material
  | Fluid
  | Solid
  | Emitter
deriving DecidableEq

/-- `glam::Vec2`, embedded over `ℚ`. -/
structure Vec2 where
  x : ℚ
  y : ℚ
deriving DecidableEq

/-- Componentwise vector addition (`glam` `+`). -/
def Vec2.add (a b : Vec2) : Vec2 := ⟨a.x + b.x, a.y + b.y⟩

/-- Componentwise scalar multiplication (`glam` `* scalar`). -/
def Vec2.scale (a : Vec2) (c : ℚ) : Vec2 := ⟨a.x * c, a.y * c⟩

/-- `Vec2::ZERO`. -/
def Vec2.zero : Vec2 := ⟨0, 0⟩

/-- Live-editable simulation parameters (`SimParams` in `main.rs`). -/
structure SimParams where
  grad_alpha : ℚ
  grad_damping : ℚ
deriving DecidableEq

/-- Default parameters (`SimParams::default`). -/
def SimParams.default : SimParams := ⟨0.1, 0.9999⟩

/-- A `WIDTH × HEIGHT` grid of the world, embedded as a total index
function; only indices with `x < WIDTH` and `y < HEIGHT` correspond to
cells of the `Array2D` in the source. -/
def GridW (T : Type) : Type := ℕ → ℕ → T

/-- `Array2D::get` on a world grid: signed coordinates, `none` outside
`[0,WIDTH) × [0,HEIGHT)`. -/
def gget {T : Type} (g : GridW T) (x y : ℤ) : Option T :=
  if 0 ≤ x ∧ x < (WIDTH : ℤ) ∧ 0 ≤ y ∧ y < (HEIGHT : ℤ) then some (g x.toNat y.toNat)
  else none

/-- Neighbor pressure read: `self.pressures_back.get(x, y).copied().unwrap_or(0.0)`. -/
def presAt (pb : GridW ℚ) (x y : ℤ) : ℚ := (gget pb x y).getD 0

/-- Neighbor velocity read:
`self.velocities_back.get(x, y).copied().unwrap_or(Vec2::ZERO)`. -/
def velAt (vb : GridW Vec2) (x y : ℤ) : Vec2 := (gget vb x y).getD Vec2.zero

/-- Pressure gradient at a cell: `(right − left, down − up)` of the back
pressure grid, missing neighbors defaulting to `0.0` (`main.rs`). -/
def pressGrad (pb : GridW ℚ) (x y : ℤ) : Vec2 :=
  ⟨presAt pb (x + 1) y - presAt pb (x - 1) y,
   presAt pb x (y + 1) - presAt pb x (y - 1)⟩

/-- The `accum` divergence term of the fluid branch:
`left.x − right.x + up.y − down.y` of the back velocity grid, missing
neighbors defaulting to zero (`main.rs`). -/
def velDiv (vb : GridW Vec2) (x y : ℤ) : ℚ :=
  (velAt vb (x - 1) y).x - (velAt vb (x + 1) y).x
    + (velAt vb x (y - 1)).y - (velAt vb x (y + 1)).y

/-- The scripted material repaint at the top of `World::update`: on ticks
divisible by 6, every column `x < WIDTH` of rows `380..384` is overwritten
with `Solid` when `(x + ticks/6) % 128 < 64` (the source's
`x.wrapping_add(offset) & 0x7F < 0x40`; both operands are nonnegative and
small, so no wrapping occurs) and `Fluid` otherwise. -/
def repaintMaterials (ticks : ℕ) (m : GridW Material) : GridW Material :=
  if ticks % 6 = 0 then
    fun x y =>
      if x < WIDTH ∧ 380 ≤ y ∧ y < 384 then
        (if (x + ticks / 6) % 128 < 64 then Material.Solid else Material.Fluid)
      else m x y
  else m

/-- The per-cell body of the parallel loop in `World::update`.  `front` and
`front_v` are the values already present in the write-target (front) grids —
after the swap these are the values of two ticks earlier; `pb` and `vb` are
the back grids the loop reads.  Returns the pair written to the front
pressure and velocity grids. -/
def cellStep (params : SimParams) (sinf : ℚ → ℚ) (time : ℚ)
    (pb : GridW ℚ) (vb : GridW Vec2) (mats : GridW Material)
    (front : ℚ) (front_v : Vec2) (x y : ℤ) : ℚ × Vec2 :=
  let grad := pressGrad pb x y
  let fv := Vec2.scale (Vec2.add front_v (Vec2.scale grad params.grad_alpha))
      (1 - params.grad_damping)
  match mats x.toNat y.toNat with
  | Material.Fluid => (front - velDiv vb x y, fv)
  | Material.Emitter => ((2.5 : ℚ) * sinf (time / 3), fv)
  | Material.Solid => (0, Vec2.zero)

/-- Simulation state (`World` in `main.rs`): front and back pressure and
velocity grids, the material grid and the tick counter.  The shared
`Arc<Mutex<SimParams>>` is passed to `update` explicitly. -/
structure World where
  pressures : GridW ℚ
  pressures_back : GridW ℚ
  velocities : GridW Vec2
  velocities_back : GridW Vec2
  materials : GridW Material
  ticks : ℕ

/-- `World::update`: repaint the scripted material rows, swap the front and
back grids (so the write target holds the two-ticks-old values and the back
grids hold the previous tick's values), increment the tick counter, then run
the per-cell stencil.  `sinf` stands for `f32::sin`. -/
def World.update (params : SimParams) (sinf : ℚ → ℚ) (w : World) : World :=
  let mats := repaintMaterials w.ticks w.materials
  let pf := w.pressures_back
  let pb := w.pressures
  let vf := w.velocities_back
  let vb := w.velocities
  let ticks := w.ticks + 1
  let time : ℚ := (ticks : ℚ) / 16
  { pressures := fun x y =>
      (cellStep params sinf time pb vb mats (pf x y) (vf x y) (x : ℤ) (y : ℤ)).1
    pressures_back := pb
    velocities := fun x y =>
      (cellStep params sinf time pb vb mats (pf x y) (vf x y) (x : ℤ) (y : ℤ)).2
    velocities_back := vb
    materials := mats
    ticks := ticks }

/-! ### C1: the velocity update -/

/-- C1 (amended): for every in-range cell whose material after the tick is
not `Solid`, the new velocity is the value the front velocity grid held
*before* the tick's writes (i.e. `w.velocities_back`, the two-ticks-old
generation swapped into the write target — not the back grid the claim
names) plus `gradient * gradient_gain`, then scaled by `1 − damping`; the
gradient is `(right−left, down−up)` of the back pressure grid
(`w.pressures`, the grid the update reads as `pressures_back` after the
swap) with out-of-grid neighbors defaulting to `0.0`. -/
theorem velocity_update_rule (params : SimParams) (sinf : ℚ → ℚ) (w : World) (x y : ℕ)
    (_hx : x < WIDTH) (_hy : y < HEIGHT)
    (hm : (World.update params sinf w).materials x y ≠ Material.Solid) :
    (World.update params sinf w).velocities x y =
      Vec2.scale
        (Vec2.add (w.velocities_back x y)
          (Vec2.scale (pressGrad w.pressures (x : ℤ) (y : ℤ)) params.grad_alpha))
        (1 - params.grad_damping) := by
  simp only [World.update] at hm ⊢
  simp only [cellStep, Int.toNat_natCast]
  cases h : repaintMaterials w.ticks w.materials x y <;> simp_all

/-- World with distinct front/back velocity generations and zero pressures,
used to separate the claimed velocity base term from the computed one. -/
def wCex1 : World :=
  ⟨fun _ _ => 0, fun _ _ => 0, fun _ _ => ⟨2, 0⟩, fun _ _ => ⟨1, 0⟩, fun _ _ => Material.Fluid, 1⟩

/-- C1 counterexample: in `wCex1` (all pressures zero, back velocity grid
constantly `(2,0)`, two-ticks-old front content constantly `(1,0)`, all
`Fluid`, gain and damping both `0`), cell `(0,0)` is not `Solid` after the
tick, yet the computed velocity `(1,0)` differs from the claim's
`back_velocity + gradient * gain` damped value `(2,0)`: the update reads
the stale front value, not the back velocity. -/
theorem velocity_update_claim_cex :
    (World.update ⟨0, 0⟩ (fun q => q) wCex1).materials 0 0 ≠ Material.Solid ∧
    (World.update ⟨0, 0⟩ (fun q => q) wCex1).velocities 0 0 ≠
      Vec2.scale
        (Vec2.add (wCex1.velocities 0 0)
          (Vec2.scale (pressGrad wCex1.pressures 0 0) (0 : ℚ)))
        (1 - (0 : ℚ)) := by
  constructor
  · simp [World.update, repaintMaterials, wCex1]
  · simp [World.update, cellStep, wCex1, repaintMaterials, pressGrad, presAt, gget,
      Vec2.add, Vec2.scale, Vec2.zero, WIDTH, HEIGHT]

/-- Witness for the amended C1 at the concrete world `wCex1`, cell `(0,0)`. -/
theorem velocity_update_rule_witness :
    (World.update ⟨0, 0⟩ (fun q => q) wCex1).velocities 0 0 =
      Vec2.scale
        (Vec2.add (wCex1.velocities_back 0 0)
          (Vec2.scale (pressGrad wCex1.pressures 0 0) (0 : ℚ)))
        (1 - (0 : ℚ)) :=
  velocity_update_rule ⟨0, 0⟩ (fun q => q) wCex1 0 0 (by norm_num [WIDTH])
    (by norm_num [HEIGHT]) (by simp [World.update, repaintMaterials, wCex1])

/-! ### C2: the pressure update -/

/-- C2 (amended): for every in-range cell that is `Fluid` after the tick,
the new pressure is the value the front pressure grid held *before* the
tick's writes (i.e. `w.pressures_back`, the two-ticks-old generation swapped
into the write target — not the back pressure the claim names) minus the
divergence term of the back velocity field (`w.velocities`, read as
`velocities_back` after the swap), out-of-grid neighbor velocities
defaulting to zero. -/
theorem pressure_update_rule (params : SimParams) (sinf : ℚ → ℚ) (w : World) (x y : ℕ)
    (_hx : x < WIDTH) (_hy : y < HEIGHT)
    (hm : (World.update params sinf w).materials x y = Material.Fluid) :
    (World.update params sinf w).pressures x y =
      w.pressures_back x y - velDiv w.velocities (x : ℤ) (y : ℤ) := by
  simp only [World.update] at hm ⊢
  simp only [cellStep, Int.toNat_natCast, hm]

/-- World with distinct front/back pressure generations and zero
velocities, used to separate the claimed pressure base term from the
computed one. -/
def wCex2 : World :=
  ⟨fun _ _ => 5, fun _ _ => 3, fun _ _ => Vec2.zero, fun _ _ => Vec2.zero,
    fun _ _ => Material.Fluid, 1⟩

/-- C2 counterexample: in `wCex2` (back pressure grid constantly `5`,
two-ticks-old front content constantly `3`, all velocities zero, all
`Fluid`), cell `(5,5)` is `Fluid` after the tick and the divergence term is
`0`, yet the computed pressure is `3`, not the claim's
`back_pressure − divergence = 5`: the update subtracts the divergence from
the stale front value, not from the back pressure. -/
theorem pressure_update_claim_cex :
    (World.update ⟨0, 0⟩ (fun q => q) wCex2).materials 5 5 = Material.Fluid ∧
    (World.update ⟨0, 0⟩ (fun q => q) wCex2).pressures 5 5 ≠
      wCex2.pressures 5 5 - velDiv wCex2.velocities 5 5 := by
  constructor
  · simp [World.update, repaintMaterials, wCex2]
  · simp [World.update, cellStep, wCex2, repaintMaterials, velDiv, velAt, gget,
      Vec2.zero, WIDTH, HEIGHT]

/-- Witness for the amended C2 at the concrete world `wCex2`, cell `(5,5)`. -/
theorem pressure_update_rule_witness :
    (World.update ⟨0, 0⟩ (fun q => q) wCex2).pressures 5 5 =
      wCex2.pressures_back 5 5 - velDiv wCex2.velocities 5 5 :=
  pressure_update_rule ⟨0, 0⟩ (fun q => q) wCex2 5 5 (by norm_num [WIDTH])
    (by norm_num [HEIGHT]) (by simp [World.update, repaintMaterials, wCex2])

/-! ### C4: Solid cells are forced to zero -/

/-- C4: after any tick, every in-range cell whose material is `Solid` has
front pressure exactly `0` and front velocity exactly `(0,0)`, regardless
of the prior state. -/
theorem solid_cell_reset (params : SimParams) (sinf : ℚ → ℚ) (w : World) (x y : ℕ)
    (_hx : x < WIDTH) (_hy : y < HEIGHT)
    (hm : (World.update params sinf w).materials x y = Material.Solid) :
    (World.update params sinf w).pressures x y = 0 ∧
    (World.update params sinf w).velocities x y = Vec2.zero := by
  simp only [World.update] at hm ⊢
  simp only [cellStep, Int.toNat_natCast, hm]
  exact ⟨trivial, trivial⟩

/-- All-`Solid` world with nonzero prior fields, witnessing the Solid
reset. -/
def wSolid : World :=
  ⟨fun _ _ => 9, fun _ _ => 9, fun _ _ => ⟨4, 4⟩, fun _ _ => ⟨4, 4⟩,
    fun _ _ => Material.Solid, 1⟩

/-- Witness for C4 at the concrete world `wSolid`, cell `(7,7)`. -/
theorem solid_cell_reset_witness :
    (World.update SimParams.default (fun q => q) wSolid).pressures 7 7 = 0 ∧
    (World.update SimParams.default (fun q => q) wSolid).velocities 7 7 = Vec2.zero :=
  solid_cell_reset SimParams.default (fun q => q) wSolid 7 7 (by norm_num [WIDTH])
    (by norm_num [HEIGHT]) (by simp [World.update, repaintMaterials, wSolid])

/-! ### C5: Emitter cells follow the time-driven oscillator -/

/-- The identity function on `ℚ`, used as a concrete stand-in for the
uninterpreted sine in witnesses. -/
def idQ : ℚ → ℚ := fun q => q

/-- C5: after any tick, every in-range cell whose material is `Emitter` has
front pressure `2.5 * sin(tick/16 / 3)` with `tick` the incremented tick
counter — independent of every neighboring value and of the cell's prior
pressure (the right-hand side mentions neither). -/
theorem emitter_cell_pressure (params : SimParams) (sinf : ℚ → ℚ) (w : World) (x y : ℕ)
    (_hx : x < WIDTH) (_hy : y < HEIGHT)
    (hm : (World.update params sinf w).materials x y = Material.Emitter) :
    (World.update params sinf w).pressures x y =
      (2.5 : ℚ) * sinf ((((World.update params sinf w).ticks : ℚ) / 16) / 3) := by
  simp only [World.update] at hm ⊢
  simp only [cellStep, Int.toNat_natCast, hm]

/-- All-`Emitter` world with nonzero prior fields, witnessing the emitter
override. -/
def wEmit : World :=
  ⟨fun _ _ => 1, fun _ _ => 2, fun _ _ => ⟨3, 3⟩, fun _ _ => ⟨1, 1⟩,
    fun _ _ => Material.Emitter, 1⟩

/-- Witness for C5 at the concrete world `wEmit`, cell `(2,2)`. -/
theorem emitter_cell_pressure_witness :
    (World.update SimParams.default idQ wEmit).pressures 2 2 =
      (2.5 : ℚ) * idQ ((((World.update SimParams.default idQ wEmit).ticks : ℚ) / 16) / 3) :=
  emitter_cell_pressure SimParams.default idQ wEmit 2 2 (by norm_num [WIDTH])
    (by norm_num [HEIGHT]) (by simp [World.update, repaintMaterials, wEmit])

/-! ### C10: scope of the scripted material repaint -/

/-- C10: the scripted repaint at the start of `World::update` leaves every
material cell with `y < 380` or `y ≥ 384` exactly as it was, on every tick;
and on ticks whose counter is not divisible by 6 it leaves the whole
material grid unchanged. -/
theorem repaint_scope (params : SimParams) (sinf : ℚ → ℚ) (w : World) :
    (∀ x y : ℕ, y < 380 ∨ 384 ≤ y →
      (World.update params sinf w).materials x y = w.materials x y) ∧
    (w.ticks % 6 ≠ 0 →
      ∀ x y : ℕ, (World.update params sinf w).materials x y = w.materials x y) := by
  constructor
  · intro x y hy
    simp only [World.update, repaintMaterials]
    by_cases hc : w.ticks % 6 = 0
    · simp only [if_pos hc]
      rw [if_neg (by omega)]
    · simp only [if_neg hc]
  · intro h x y
    simp only [World.update, repaintMaterials, if_neg h]

/-- World whose material grid marks each cell by its coordinates' parity,
witnessing repaint preservation. -/
def wPaint : World :=
  ⟨fun _ _ => 0, fun _ _ => 0, fun _ _ => Vec2.zero, fun _ _ => Vec2.zero,
    fun x y => if (x + y) % 2 = 0 then Material.Fluid else Material.Solid, 0⟩

/-- Witness for C10 at the concrete world `wPaint` (tick 0, where the
repaint does run), row 100. -/
theorem repaint_scope_witness :
    (World.update SimParams.default idQ wPaint).materials 3 100 = wPaint.materials 3 100 :=
  (repaint_scope SimParams.default idQ wPaint).1 3 100 (Or.inl (by norm_num))

/-! ### C6: no spontaneous energy -/

/-- Every pressure and velocity value of both generations is zero. -/
def ZeroState (w : World) : Prop :=
  (∀ x y : ℕ, w.pressures x y = 0) ∧ (∀ x y : ℕ, w.pressures_back x y = 0) ∧
  (∀ x y : ℕ, w.velocities x y = Vec2.zero) ∧ (∀ x y : ℕ, w.velocities_back x y = Vec2.zero)

/-- No cell of the material grid is an `Emitter`. -/
def NoEmitter (w : World) : Prop := ∀ x y : ℕ, w.materials x y ≠ Material.Emitter

/-- The scripted repaint never introduces an `Emitter` cell. -/
theorem repaint_no_emitter (t : ℕ) (m : GridW Material)
    (h : ∀ x y : ℕ, m x y ≠ Material.Emitter) :
    ∀ x y : ℕ, repaintMaterials t m x y ≠ Material.Emitter := by
  intro x y
  unfold repaintMaterials
  by_cases ht : t % 6 = 0
  · simp only [if_pos ht]
    split_ifs with h1 h2 <;> simp_all
  · simp only [if_neg ht]
    exact h x y

/-- A neighbor pressure read from an all-zero grid is zero. -/
theorem presAt_zero (g : GridW ℚ) (h : ∀ a b : ℕ, g a b = 0) (x y : ℤ) :
    presAt g x y = 0 := by
  unfold presAt gget
  split <;> simp [h]

/-- A neighbor velocity read from an all-zero grid is zero. -/
theorem velAt_zero (g : GridW Vec2) (h : ∀ a b : ℕ, g a b = Vec2.zero) (x y : ℤ) :
    velAt g x y = Vec2.zero := by
  unfold velAt gget
  split <;> simp [h]

/-- One tick preserves the all-zero state as long as no cell is an
`Emitter`, and the no-`Emitter` condition itself is preserved. -/
theorem zero_state_step (params : SimParams) (sinf : ℚ → ℚ) (w : World)
    (hz : ZeroState w) (hm : NoEmitter w) :
    ZeroState (World.update params sinf w) ∧ NoEmitter (World.update params sinf w) := by
  obtain ⟨hp, hpb, hv, hvb⟩ := hz
  have hgrad : ∀ x y : ℤ, pressGrad w.pressures x y = ⟨0, 0⟩ := by
    intro x y; unfold pressGrad; rw [presAt_zero _ hp, presAt_zero _ hp,
      presAt_zero _ hp, presAt_zero _ hp]; simp
  have hdiv : ∀ x y : ℤ, velDiv w.velocities x y = 0 := by
    intro x y; unfold velDiv; rw [velAt_zero _ hv, velAt_zero _ hv,
      velAt_zero _ hv, velAt_zero _ hv]; simp [Vec2.zero]
  have hfv : ∀ (x y : ℤ) (fv : Vec2), fv = Vec2.zero →
      Vec2.scale (Vec2.add fv (Vec2.scale (pressGrad w.pressures x y) params.grad_alpha))
        (1 - params.grad_damping) = Vec2.zero := by
    intro x y fv hfv
    rw [hfv, hgrad]; simp [Vec2.scale, Vec2.add, Vec2.zero]
  have hcell : ∀ x y : ℕ,
      cellStep params sinf ((((w.ticks + 1 : ℕ)) : ℚ) / 16) w.pressures w.velocities
        (repaintMaterials w.ticks w.materials) (w.pressures_back x y)
        (w.velocities_back x y) (x : ℤ) (y : ℤ) = (0, Vec2.zero) := by
    intro x y
    unfold cellStep
    have hne := repaint_no_emitter w.ticks w.materials hm x y
    rcases hmat : repaintMaterials w.ticks w.materials x y with _ | _ | _
    · simp only [Int.toNat_natCast, hmat]
      rw [hpb, hdiv, hfv _ _ _ (hvb x y)]
      norm_num
    · simp only [Int.toNat_natCast, hmat]
    · exact absurd hmat hne
  constructor
  · refine ⟨?_, ?_, ?_, ?_⟩
    · intro x y
      show (cellStep _ _ _ _ _ _ _ _ _ _).1 = 0
      rw [hcell]
    · exact fun x y => hp x y
    · intro x y
      show (cellStep _ _ _ _ _ _ _ _ _ _).2 = Vec2.zero
      rw [hcell]
    · exact fun x y => hv x y
  · exact repaint_no_emitter w.ticks w.materials hm

/-- C6: starting from an all-`Fluid` material grid with every pressure and
velocity value of both generations zero, any number of ticks leaves every
pressure and velocity value of both generations zero. -/
theorem all_fluid_zero_stays_zero (params : SimParams) (sinf : ℚ → ℚ) (w : World)
    (hmat : ∀ x y : ℕ, w.materials x y = Material.Fluid)
    (hz : ZeroState w) :
    ∀ n : ℕ, ZeroState ((World.update params sinf)^[n] w) := by
  have hm : NoEmitter w := fun x y => by rw [hmat x y]; simp
  have key : ∀ n : ℕ, ZeroState ((World.update params sinf)^[n] w) ∧
      NoEmitter ((World.update params sinf)^[n] w) := by
    intro n
    induction n with
    | zero => exact ⟨hz, hm⟩
    | succ n ih =>
      rw [Function.iterate_succ_apply']
      exact zero_state_step params sinf _ ih.1 ih.2
  exact fun n => (key n).1

/-- All-`Fluid`, all-zero world, witnessing C6. -/
def wZero : World :=
  ⟨fun _ _ => 0, fun _ _ => 0, fun _ _ => Vec2.zero, fun _ _ => Vec2.zero,
    fun _ _ => Material.Fluid, 0⟩

/-- Witness for C6: five ticks of the all-zero all-`Fluid` world stay
all-zero. -/
theorem all_fluid_zero_stays_zero_witness :
    ZeroState ((World.update SimParams.default idQ)^[5] wZero) :=
  all_fluid_zero_stays_zero SimParams.default idQ wZero (fun _ _ => rfl)
    ⟨fun _ _ => rfl, fun _ _ => rfl, fun _ _ => rfl, fun _ _ => rfl⟩ 5

/-! ### C3: the finiteness assertion -/

/-- Four-point model of the `f32` finiteness classes: a finite value, the
two infinities, and NaN. -/
inductive Fl
  | finite (q : ℚ)
  | posInf
  | negInf
  | nan
deriving DecidableEq

/-- `f32::is_infinite`: true exactly on the two infinities — in particular
false on NaN. -/
def Fl.isInfinite : Fl → Bool
  | posInf => true
  | negInf => true
  | _ => false

/-- `f32::is_finite`: true exactly on finite values — false on the
infinities and on NaN. -/
def Fl.isFinite : Fl → Bool
  | finite _ => true
  | _ => false

/-- The per-cell assertion at the top of the update closure
(`assert!(!back.is_infinite())` in `World::update`): `true` means the
assertion passes for that cell's back-pressure value. -/
def backAssertPasses (back : Fl) : Bool := !back.isInfinite

/-- The assertion as executed by the tick: it runs once per in-range cell
on the back-pressure value read for that cell. -/
def tickAssertOk (pb : GridW Fl) : Prop :=
  ∀ x y : ℕ, x < WIDTH → y < HEIGHT → backAssertPasses (pb x y) = true

/-- C3 counterexample: a back-pressure grid holding NaN everywhere passes
the tick's assertion, although NaN is not finite — so not every non-finite
value is detected. -/
theorem assert_misses_nan :
    tickAssertOk (fun _ _ => Fl.nan) ∧ Fl.nan.isFinite = false ∧
    backAssertPasses Fl.nan = true :=
  ⟨fun _ _ _ _ => rfl, rfl, rfl⟩

/-- C3 (amended): the update's per-cell assertion fails exactly on the two
infinite back-pressure values; NaN is non-finite but passes undetected (and
no value is clamped — the assertion is the only treatment). -/
theorem backAssert_detects_exactly_infinities (v : Fl) :
    backAssertPasses v = false ↔ (v = Fl.posInf ∨ v = Fl.negInf) := by
  cases v <;> simp [backAssertPasses, Fl.isInfinite]

/-- Witness: the amended C3 applied at `+∞`, where the assertion does
fire. -/
theorem backAssert_detects_exactly_infinities_witness :
    backAssertPasses Fl.posInf = false :=
  (backAssert_detects_exactly_infinities Fl.posInf).mpr (Or.inl rfl)

/-! ### C8: the cross-thread double buffer -/

/-- `DoubleBuffer::get`'s try-lock loop (`audio.rs`): starting from the
slot named by `init_idx`, return the slot if its mutex is free, otherwise
toggle to the other slot (`idx ^= 1`) and retry.  The slot index bit is a
`Bool`, the instantaneous lock state of the two slots is
`locked : Bool → Bool`, and the unbounded `loop` carries explicit fuel —
`none` means the loop was still spinning when the fuel ran out. -/
def dbufAcquire : ℕ → (Bool → Bool) → Bool → Option Bool
  | 0, _, _ => none
  | fuel + 1, locked, idx => if locked idx then dbufAcquire fuel locked (!idx) else some idx

/-- `DoubleBuffer::front`: acquire starting from the current index bit. -/
def dbufFront (fuel : ℕ) (locked : Bool → Bool) (idx : Bool) : Option Bool :=
  dbufAcquire fuel locked idx

/-- `DoubleBuffer::back`: acquire starting from the complement of the
current index bit (`1 ^ idx`). -/
def dbufBack (fuel : ℕ) (locked : Bool → Bool) (idx : Bool) : Option Bool :=
  dbufAcquire fuel locked (!idx)

/-- Core behavior of the try-lock loop when the other thread holds at most
one slot: the named slot is taken if free, otherwise the other slot is
taken on the immediate retry; two attempts always suffice. -/
theorem dbufAcquire_spec (locked : Bool → Bool) (start : Bool) (fuel : ℕ)
    (hfuel : 2 ≤ fuel) (hfree : ¬(locked false = true ∧ locked true = true)) :
    (locked start = false → dbufAcquire fuel locked start = some start) ∧
    (locked start = true →
      dbufAcquire fuel locked start = some (!start) ∧ locked (!start) = false) ∧
    ∃ j, dbufAcquire fuel locked start = some j ∧ locked j = false := by
  obtain ⟨k, rfl⟩ : ∃ k, fuel = k + 2 := ⟨fuel - 2, by omega⟩
  cases hs : locked start with
  | false =>
    refine ⟨fun _ => by simp [dbufAcquire, hs], fun h => by simp [hs] at h, ?_⟩
    exact ⟨start, by simp [dbufAcquire, hs], hs⟩
  | true =>
    have hn : locked (!start) = false := by cases start <;> simp_all
    refine ⟨fun h => by simp [hs] at h, fun _ => ⟨by simp [dbufAcquire, hs, hn], hn⟩, ?_⟩
    exact ⟨!start, by simp [dbufAcquire, hs, hn], hn⟩

/-- C8: `front()` first attempts the slot named by the current index and
`back()` its complement; a contended first attempt falls through to the
other slot immediately, and whenever the other thread holds at most one
slot, both calls obtain an unheld slot within two attempts (so more fuel is
never needed and neither thread waits on the other). -/
theorem dbuf_front_back_policy (locked : Bool → Bool) (idx : Bool) (fuel : ℕ)
    (hfuel : 2 ≤ fuel) (hfree : ¬(locked false = true ∧ locked true = true)) :
    (locked idx = false → dbufFront fuel locked idx = some idx) ∧
    (locked idx = true → dbufFront fuel locked idx = some (!idx)) ∧
    (locked (!idx) = false → dbufBack fuel locked idx = some (!idx)) ∧
    (locked (!idx) = true → dbufBack fuel locked idx = some idx) ∧
    (∃ j, dbufFront fuel locked idx = some j ∧ locked j = false) ∧
    (∃ j, dbufBack fuel locked idx = some j ∧ locked j = false) := by
  obtain ⟨hf1, hf2, hf3⟩ := dbufAcquire_spec locked idx fuel hfuel hfree
  obtain ⟨hb1, hb2, hb3⟩ := dbufAcquire_spec locked (!idx) fuel hfuel hfree
  refine ⟨hf1, fun h => (hf2 h).1, hb1, fun h => ?_, hf3, hb3⟩
  have := (hb2 h).1
  simpa using this

/-- Lock state with only the second slot held, witnessing the acquisition
policy. -/
def lockedSnd : Bool → Bool := fun b => b

/-- Witness: the C8 policy at the concrete lock state `lockedSnd` with
index bit `false` and fuel 2. -/
theorem dbuf_front_back_policy_witness :
    dbufFront 2 lockedSnd false = some false :=
  (dbuf_front_back_policy lockedSnd false 2 (by norm_num) (by simp [lockedSnd])).1 rfl

/-! ### C9: the per-frame spectrum forcing -/

/-- `f32` multiplication by `0.5`, on the float model: scaling a finite
value halves it and every class is preserved (`f32` multiplication by a
half never overflows a finite value to an infinity). -/
def Fl.half : Fl → Fl
  | finite q => finite (q * 0.5)
  | posInf => posInf
  | negInf => negInf
  | nan => nan

/-- The per-frame forcing block of `main`'s event loop: when the published
frame `front` is non-empty, every column `x < WIDTH` of rows `0..4` of the
pressure front grid is overwritten with `front[x % front.len()] * 0.5`,
replaced by `0.0` when that product is not finite; every other cell is left
as it was. -/
def ingestSpectrum (front : List Fl) (g : GridW Fl) : GridW Fl :=
  if front.isEmpty then g
  else fun x y =>
    if x < WIDTH ∧ y < 4 then
      let pres := Fl.half ((front.get? (x % front.length)).getD (Fl.finite 0))
      if pres.isFinite then pres else Fl.finite 0
    else g x y

/-- C9: for a non-empty published frame, every column of the top strip
(rows 0–3) is overwritten with the bin at `x mod front.len()` scaled by the
constant `0.5` — the scaled bin when the bin is finite, `0.0` when the bin
is NaN or infinite — and every pressure cell outside the strip keeps its
value. -/
theorem spectrum_forcing_strip (front : List Fl) (g : GridW Fl) (x y : ℕ)
    (hne : front ≠ []) :
    (x < WIDTH → y < 4 →
      ingestSpectrum front g x y =
        (if ((front.get? (x % front.length)).getD (Fl.finite 0)).isFinite then
          Fl.half ((front.get? (x % front.length)).getD (Fl.finite 0))
        else Fl.finite 0)) ∧
    (4 ≤ y → ingestSpectrum front g x y = g x y) := by
  have hemp : front.isEmpty = false := by simpa using hne
  constructor
  · intro hx hy
    simp only [ingestSpectrum, hemp, Bool.false_eq_true, if_false]
    rw [if_pos ⟨hx, hy⟩]
    cases hb : (front.get? (x % front.length)).getD (Fl.finite 0) <;>
      simp [Fl.half, Fl.isFinite]
  · intro hy
    simp only [ingestSpectrum, hemp, Bool.false_eq_true, if_false]
    rw [if_neg (by omega)]

/-- Constant pressure grid used to witness the forcing step. -/
def gPress : GridW Fl := fun _ _ => Fl.finite 1

/-- Witness: the C9 forcing applied to a one-bin NaN frame — row 5 keeps
its value. -/
theorem spectrum_forcing_strip_witness :
    ingestSpectrum [Fl.nan] gPress 0 5 = gPress 0 5 :=
  (spectrum_forcing_strip [Fl.nan] gPress 0 5 (by simp)).2 (by norm_num)
